import Mathlib

/-!
Shallow embedding of the Triton docker-machine driver (driver.go) and of the
older SDC variant of the same repository, covering the image-resolution
algorithm in PreCreateCheck, the state mapping in GetState, and the
Kill/Stop lifecycle calls.  Remote collaborators (the compute API client and
the clock parser) are modelled as explicit environments of response
functions; driver mutation is modelled by explicit state passing.
-/

namespace Triton

/-- A catalog image as returned by the compute API (compute.Image): exact
identifier, name, and publication timestamp.  time.Time is modelled as an
integer instant; time.Time.Before is integer strict order. -/
structure Image where
  ID : String
  Name : String
  PublishedAt : Int
deriving DecidableEq, Repr

/-- The driver state fields that the embedded operations read or write
(Driver / drivers.BaseDriver in driver.go). -/
structure Driver where
  MachineName : String
  TritonImage : String
  TritonPackage : String
  TritonMachineId : String
  IPAddress : String
deriving DecidableEq, Repr

/-- The filter passed to compute ListImages (compute.ListImagesInput);
unset Go struct fields are the empty string. -/
structure ListImagesInput where
  State : String := ""
  Name : String := ""
  Version : String := ""
deriving DecidableEq, Repr

/-- Split a character list at the first occurrence of sep: none when sep
does not occur, otherwise the part before and the part after it. -/
def splitFirst (sep : Char) : List Char → Option (List Char × List Char)
  | [] => none
  | c :: cs =>
    if c = sep then some ([], cs)
    else
      match splitFirst sep cs with
      | none => none
      | some (pre, post) => some (c :: pre, post)

/-- strings.SplitN s sep 2 for a one-character separator (the code only
splits on "@" and "-"): at most two parts, the split happening at the
first occurrence, the second part keeping any later separators. -/
def splitN2 (sep : Char) (s : String) : List String :=
  match splitFirst sep s.data with
  | none => [s]
  | some (pre, post) => [String.mk pre, String.mk post]

/-- uuidToShortId from driver.go: strings.SplitN(s, "-", 2)[0]. -/
def uuidToShortId (s : String) : String :=
  (splitN2 '-' s).headD ""

/-- The name component of a user image reference: nameVersion[0] after
strings.SplitN(ref, "@", 2). -/
def imageName (ref : String) : String :=
  (splitN2 '@' ref).headD ""

/-- The version component of a user image reference: nameVersion[1] when
the split has two parts, otherwise the empty string. -/
def imageVersion (ref : String) : String :=
  match splitN2 '@' ref with
  | [_, v] => v
  | _ => ""

/-- The ListImages filter built in PreCreateCheck: State is always "all";
Name and Version are set only when the reference carried a version. -/
def mkListInput (ref : String) : ListImagesInput :=
  if imageVersion ref ≠ "" then
    { State := "all", Name := imageName ref, Version := imageVersion ref }
  else
    { State := "all" }

/-- nameMatches accumulated by the listing loop: images whose Name equals
the queried name. -/
def nameMatchesOf (ref : String) (images : List Image) : List Image :=
  images.filter (fun image => imageName ref == image.Name)

/-- shortIdMatches accumulated by the listing loop: images whose short id
(first hyphen-delimited segment of the ID) equals the queried name. -/
def shortIdMatchesOf (ref : String) (images : List Image) : List Image :=
  images.filter (fun image => imageName ref == uuidToShortId image.ID)

/-- Errors PreCreateCheck can return.  getImageErr is the error value the
failed exact-identifier lookup of the (original) reference produced; the
code returns that very value on the no-match and ambiguous-short-id paths,
so the model tags it with the reference the lookup was keyed at together
with the remote message. -/
inductive PErr where
  | clientErr
  | pingErr
  | listErr (msg : String)
  | getImageErr (ref : String) (msg : String)
  | packageErr (ref : String)
  | stopErr (msg : String)
deriving DecidableEq, Repr

/-- The log.Infof / log.Warnf events of the resolution block, carrying the
data the format strings interpolate. -/
inductive LogEvent where
  | infoNameMatch (orig resolved : String)
  | infoMostRecent (orig resolved : String) (count : Nat)
  | infoShortId (orig resolved : String)
  | warnAmbiguous (orig : String)
deriving DecidableEq, Repr

/-- Responses of the remote compute API used by PreCreateCheck.  getImage
ref is none when the exact-identifier lookup succeeds (the returned image
value is discarded by the code) and some msg when it fails with msg. -/
structure Env where
  clientOk : Bool
  pingOk : Bool
  getImage : String → Option String
  listImages : ListImagesInput → Except String (List Image)
  getPackageOk : String → Bool

/-- One step of the most-recent scan over nameMatches[1:], carrying the
(mostRecent, published) pair exactly as the Go loop does. -/
def tieStep (acc : Image × Int) (image : Image) : Image × Int :=
  if acc.2 < image.PublishedAt then (image, image.PublishedAt) else acc

/-- The image-resolution phase of PreCreateCheck (the body of the
`if err != nil` block together with the preceding exact lookup), as a pure
function from the environment and the driver to the updated driver, the
emitted log events, and the error, none meaning success. -/
def resolveImageStep (env : Env) (d : Driver) :
    Driver × List LogEvent × Option PErr :=
  match env.getImage d.TritonImage with
  | none => (d, [], none)
  | some msg =>
    match env.listImages (mkListInput d.TritonImage) with
    | .error e => (d, [], some (PErr.listErr e))
    | .ok images =>
      match nameMatchesOf d.TritonImage images with
      | [image] =>
        ({ d with TritonImage := image.ID },
         [LogEvent.infoNameMatch d.TritonImage image.ID], none)
      | first :: next :: rest =>
        let mr := (next :: rest).foldl tieStep (first, first.PublishedAt)
        ({ d with TritonImage := mr.1.ID },
         [LogEvent.infoMostRecent d.TritonImage mr.1.ID
            (first :: next :: rest).length], none)
      | [] =>
        match shortIdMatchesOf d.TritonImage images with
        | [image] =>
          ({ d with TritonImage := image.ID },
           [LogEvent.infoShortId d.TritonImage image.ID], none)
        | _ :: _ :: _ =>
          (d, [LogEvent.warnAmbiguous d.TritonImage],
           some (PErr.getImageErr d.TritonImage msg))
        | [] => (d, [], some (PErr.getImageErr d.TritonImage msg))

/-- PreCreateCheck: client construction, ping, image resolution, then the
package existence check on the (possibly rewritten) package reference. -/
def PreCreateCheck (env : Env) (d : Driver) :
    Driver × List LogEvent × Option PErr :=
  if env.clientOk = false then (d, [], some PErr.clientErr)
  else if env.pingOk = false then (d, [], some PErr.pingErr)
  else
    match resolveImageStep env d with
    | (d1, logs, some e) => (d1, logs, some e)
    | (d1, logs, none) =>
      if env.getPackageOk d1.TritonPackage then (d1, logs, none)
      else (d1, logs, some (PErr.packageErr d1.TritonPackage))

/-- The remote instance-creation request built by Create
(compute.CreateInstanceInput). -/
structure CreateInstanceInput where
  Name : String
  Image : String
  Package : String
deriving DecidableEq, Repr

/-- The request Create submits: name, image and package are taken verbatim
from the driver fields. -/
def createInput (d : Driver) : CreateInstanceInput :=
  { Name := d.MachineName, Image := d.TritonImage, Package := d.TritonPackage }

/-- The abstract machine states of libmachine state.State, in declaration
order of the Go constants. -/
inductive MachineState where
  | NoneState
  | Running
  | Paused
  | Saved
  | Stopped
  | Stopping
  | Starting
  | Error
deriving DecidableEq, Repr

/-- Errors GetState can return: the propagated getMachine failure, or the
diagnostic built for an unrecognized remote state string, tagged with that
string as the format string interpolates it. -/
inductive GErr where
  | getMachineErr (msg : String)
  | unknownState (s : String)
deriving DecidableEq, Repr

/-- The instance record fields GetState and getMachine read
(compute.Instance). -/
structure Machine where
  Name : String
  PrimaryIP : String
  State : String
deriving DecidableEq, Repr

/-- Responses of the remote API used by getMachine: fetch an instance
record by its exact identifier. -/
structure MEnv where
  getMachine : String → Except String Machine

/-- The switch over the remote state string in GetState, in source case
order; the fall-through default builds the unknown-state diagnostic. -/
def mapState (s : String) : MachineState × Option GErr :=
  if s == "configured" || s == "provisioning" then (MachineState.Starting, none)
  else if s == "failed" || s == "receiving" then (MachineState.Error, none)
  else if s == "running" then (MachineState.Running, none)
  else if s == "shutting_down" || s == "stopping" then (MachineState.Stopping, none)
  else if s == "down" || s == "stopped" then (MachineState.Stopped, none)
  else (MachineState.Error, some (GErr.unknownState s))

/-- The remote state strings the switch in GetState recognizes, in source
order. -/
def stateVocab : List String :=
  ["configured", "provisioning", "failed", "receiving", "running",
   "shutting_down", "stopping", "down", "stopped"]

/-- GetState: fetch the machine record (getMachine also caches PrimaryIP
into d.IPAddress on success), then map its state string. -/
def GetState (env : MEnv) (d : Driver) :
    Driver × MachineState × Option GErr :=
  match env.getMachine d.TritonMachineId with
  | .error msg => (d, MachineState.Error, some (GErr.getMachineErr msg))
  | .ok machine =>
    ({ d with IPAddress := machine.PrimaryIP },
     (mapState machine.State).1, (mapState machine.State).2)

/-- The remote lifecycle calls issued by Stop (and hence Kill). -/
inductive RemoteCall where
  | stopInstance (id : String)
deriving DecidableEq, Repr

/-- Responses of the remote API used by Stop: stopInstance returns none on
success and the error message on failure. -/
structure OpEnv where
  clientOk : Bool
  stopInstance : String → Option String

/-- Stop: build the client, then issue StopInstance on the stored machine
id; the result is the trace of remote calls plus the returned error. -/
def Stop (env : OpEnv) (d : Driver) : List RemoteCall × Option PErr :=
  if env.clientOk = false then ([], some PErr.clientErr)
  else
    ([RemoteCall.stopInstance d.TritonMachineId],
     match env.stopInstance d.TritonMachineId with
     | some msg => some (PErr.stopErr msg)
     | none => none)

/-- Kill: the body is exactly `return d.Stop()`. -/
def Kill (env : OpEnv) (d : Driver) : List RemoteCall × Option PErr :=
  Stop env d

/-- Selection-side view of one tie-break iteration: keep the strictly later
image.  Used to relate the pair-carrying loop to the selected image. -/
def pickLater (acc image : Image) : Image :=
  if acc.PublishedAt < image.PublishedAt then image else acc

/-- The maximum publication timestamp of a list of images, seeded with a. -/
def maxPubFrom (a : Int) (l : List Image) : Int :=
  l.foldl (fun m x => max m x.PublishedAt) a

/-- The maximum publication timestamp of a nonempty list of images (0 for
the empty list, which the tie-break never sees). -/
def maxPubOf : List Image → Int
  | [] => 0
  | a :: l => maxPubFrom a.PublishedAt l

/-- Concrete catalog snapshot with three images of the same name, the last
two sharing the maximal publication timestamp. -/
def catTie : List Image :=
  [⟨"aaa-111", "debian-8", 5⟩, ⟨"bbb-222", "debian-8", 9⟩,
   ⟨"ccc-333", "debian-8", 9⟩]

/-- Environment whose exact-identifier lookup fails and whose listing
returns catTie. -/
def envTie : Env :=
  ⟨true, true, fun _ => some "resource not found",
   fun _ => Except.ok catTie, fun _ => true⟩

/-- Driver configured with the reference "debian-8". -/
def dDeb : Driver := ⟨"machine1", "debian-8", "pkg1", "", ""⟩

/-- Environment whose exact-identifier lookup succeeds; its catalog also
holds an entry named like the reference, to exercise the short-circuit. -/
def envFast : Env :=
  ⟨true, true, fun _ => none,
   fun _ => Except.ok [⟨"ddd-444", "debian-8", 7⟩], fun _ => true⟩

/-- Concrete catalog snapshot with no name match for "ca29" and two images
whose short id is "ca29". -/
def catAmb : List Image :=
  [⟨"ca29-1111", "imgx", 5⟩, ⟨"ca29-2222", "imgy", 9⟩]

/-- Environment whose exact-identifier lookup fails and whose listing
returns catAmb. -/
def envAmb : Env :=
  ⟨true, true, fun _ => some "resource not found",
   fun _ => Except.ok catAmb, fun _ => true⟩

/-- Driver configured with the short reference "ca29". -/
def dShort : Driver := ⟨"machine1", "ca29", "pkg1", "", ""⟩

/-- Concrete catalog snapshot with exactly one image named "alp" and also
one distinct image whose short id is "alp". -/
def catOne : List Image :=
  [⟨"aaa-111", "alp", 5⟩, ⟨"alp-999", "zother", 1⟩]

/-- Environment whose exact-identifier lookup fails and whose listing
returns catOne. -/
def envOne : Env :=
  ⟨true, true, fun _ => some "resource not found",
   fun _ => Except.ok catOne, fun _ => true⟩

/-- Driver configured with the reference "alp". -/
def dAlp : Driver := ⟨"machine1", "alp", "pkg1", "", ""⟩

/-- Concrete catalog snapshot with no name match and exactly one short-id
match for "ca29". -/
def catSid : List Image :=
  [⟨"ca29-1111", "imgx", 5⟩, ⟨"bbbb-2222", "imgy", 9⟩]

/-- Environment whose exact-identifier lookup fails and whose listing
returns catSid. -/
def envSid : Env :=
  ⟨true, true, fun _ => some "resource not found",
   fun _ => Except.ok catSid, fun _ => true⟩

end Triton

namespace Sdc

/-- A catalog image of the older SDC driver variant (cloudapi.Image): there
PublishedAt is still a raw wire string, parsed during the tie-break. -/
structure Image where
  Id : String
  Name : String
  PublishedAt : String
deriving DecidableEq, Repr

/-- The SDC driver state field the resolution block reads and writes. -/
structure Driver where
  SdcImage : String
deriving DecidableEq, Repr

/-- Errors of the SDC resolution block; timeErr is the error time.Parse
returned for an unparsable publication timestamp. -/
inductive Err where
  | listErr (msg : String)
  | getImageErr (ref : String) (msg : String)
  | timeErr (msg : String)
deriving DecidableEq, Repr

/-- Responses of the SDC cloud API and of the clock parser.  parseRFC3339
models time.Parse(time.RFC3339, s): ok with the parsed instant, or error
with the parse failure message. -/
structure Env where
  getImage : String → Option String
  listImages : Triton.ListImagesInput → Except String (List Image)
  parseRFC3339 : String → Except String Int

/-- iso8859 from the SDC driver: time.Parse with the fixed RFC3339 layout. -/
def iso8859 (env : Env) (s : String) : Except String Int :=
  env.parseRFC3339 s

/-- nameMatches of the SDC listing loop. -/
def nameMatchesOf (ref : String) (images : List Image) : List Image :=
  images.filter (fun image => Triton.imageName ref == image.Name)

/-- shortIdMatches of the SDC listing loop. -/
def shortIdMatchesOf (ref : String) (images : List Image) : List Image :=
  images.filter (fun image => Triton.imageName ref == Triton.uuidToShortId image.Id)

/-- One iteration of the SDC most-recent scan: parse the candidate
timestamp, aborting the whole scan on a parse failure, otherwise keep the
later of the two instants.  An already-failed accumulator stays failed,
matching the immediate return in the loop. -/
def tieStep (env : Env) (acc : Except String (Image × Int)) (image : Image) :
    Except String (Image × Int) :=
  match acc with
  | .error e => .error e
  | .ok (mostRecent, published) =>
    match iso8859 env image.PublishedAt with
    | .error te => .error te
    | .ok newPublished =>
      if published < newPublished then .ok (image, newPublished)
      else .ok (mostRecent, published)

/-- The image-resolution block of the SDC PreCreateCheck: identical to the
Triton one except that the tie-break parses each candidate publication
timestamp with iso8859 and returns the parse error when one fails. -/
def resolveImageStep (env : Env) (d : Driver) :
    Driver × List Triton.LogEvent × Option Err :=
  match env.getImage d.SdcImage with
  | none => (d, [], none)
  | some msg =>
    match env.listImages (Triton.mkListInput d.SdcImage) with
    | .error e => (d, [], some (Err.listErr e))
    | .ok images =>
      match nameMatchesOf d.SdcImage images with
      | [image] =>
        ({ d with SdcImage := image.Id },
         [Triton.LogEvent.infoNameMatch d.SdcImage image.Id], none)
      | first :: next :: rest =>
        match iso8859 env first.PublishedAt with
        | .error te => (d, [], some (Err.timeErr te))
        | .ok published =>
          match (next :: rest).foldl (tieStep env) (.ok (first, published)) with
          | .error te => (d, [], some (Err.timeErr te))
          | .ok mr =>
            ({ d with SdcImage := mr.1.Id },
             [Triton.LogEvent.infoMostRecent d.SdcImage mr.1.Id
                (first :: next :: rest).length], none)
      | [] =>
        match shortIdMatchesOf d.SdcImage images with
        | [image] =>
          ({ d with SdcImage := image.Id },
           [Triton.LogEvent.infoShortId d.SdcImage image.Id], none)
        | _ :: _ :: _ =>
          (d, [Triton.LogEvent.warnAmbiguous d.SdcImage],
           some (Err.getImageErr d.SdcImage msg))
        | [] => (d, [], some (Err.getImageErr d.SdcImage msg))

/-- Concrete SDC catalog with two images of the queried name, the second
carrying an unparsable publication timestamp. -/
def catBad : List Image :=
  [⟨"aaa-111", "debian-8", "2015-01-01T00:00:00Z"⟩,
   ⟨"bbb-222", "debian-8", "badtime"⟩]

/-- SDC environment whose exact lookup fails, whose listing returns
catBad, and whose clock parser accepts only the one well-formed
timestamp. -/
def envBad : Env :=
  ⟨fun _ => some "resource not found", fun _ => Except.ok catBad,
   fun s => if s = "2015-01-01T00:00:00Z" then Except.ok 100
            else Except.error "cannot parse"⟩

/-- SDC driver configured with the reference "debian-8". -/
def dDeb : Driver := ⟨"debian-8"⟩

end Sdc

namespace Triton

/-- The seed is a lower bound of the running maximum. -/
lemma le_maxPubFrom (l : List Image) : ∀ a : Int, a ≤ maxPubFrom a l := by
  induction l with
  | nil => intro a; exact le_refl a
  | cons x t ih =>
    intro a
    have h1 : maxPubFrom a (x :: t) = maxPubFrom (max a x.PublishedAt) t := rfl
    rw [h1]
    exact le_trans (le_max_left _ _) (ih _)

/-- The mostRecent scan selects the first element of the candidate list
whose publication timestamp attains the maximum. -/
lemma foldl_pickLater_find (l : List Image) : ∀ first : Image,
    (first :: l).find?
        (fun x => x.PublishedAt == maxPubFrom first.PublishedAt l)
      = some (l.foldl pickLater first) := by
  induction l with
  | nil =>
    intro first
    simp [maxPubFrom]
  | cons x t ih =>
    intro first
    have hM : maxPubFrom first.PublishedAt (x :: t)
        = maxPubFrom (max first.PublishedAt x.PublishedAt) t := rfl
    by_cases h : first.PublishedAt < x.PublishedAt
    · have hmax : max first.PublishedAt x.PublishedAt = x.PublishedAt :=
        max_eq_right h.le
      have hfold : (x :: t).foldl pickLater first = t.foldl pickLater x := by
        simp [pickLater, h]
      have hlt : first.PublishedAt < maxPubFrom x.PublishedAt t :=
        lt_of_lt_of_le h (le_maxPubFrom t _)
      have hb : (first.PublishedAt == maxPubFrom x.PublishedAt t) = false := by
        simp only [beq_eq_false_iff_ne, ne_eq]
        exact ne_of_lt hlt
      rw [hfold, hM, hmax]
      simp only [List.find?_cons, hb]
      exact ih x
    · have hmax : max first.PublishedAt x.PublishedAt = first.PublishedAt :=
        max_eq_left (not_lt.mp h)
      have hfold : (x :: t).foldl pickLater first = t.foldl pickLater first := by
        simp [pickLater, h]
      rw [hfold, hM, hmax]
      by_cases hp : first.PublishedAt = maxPubFrom first.PublishedAt t
      · have hb : (first.PublishedAt == maxPubFrom first.PublishedAt t) = true := by
          simp only [beq_iff_eq]; exact hp
        have h2 := ih first
        simp only [List.find?_cons, hb] at h2 ⊢
        exact h2
      · have hlt : first.PublishedAt < maxPubFrom first.PublishedAt t :=
          lt_of_le_of_ne (le_maxPubFrom t _) hp
        have hb1 : (first.PublishedAt == maxPubFrom first.PublishedAt t) = false := by
          simp only [beq_eq_false_iff_ne, ne_eq]; exact hp
        have hb2 : (x.PublishedAt == maxPubFrom first.PublishedAt t) = false := by
          simp only [beq_eq_false_iff_ne, ne_eq]
          exact ne_of_lt (lt_of_le_of_lt (not_lt.mp h) hlt)
        have h2 := ih first
        simp only [List.find?_cons, hb1, hb2] at h2 ⊢
        exact h2

/-- The pair-carrying loop of resolveImageStep equals the selection-side
scan together with the invariant that the carried instant is the
publication timestamp of the carried image. -/
lemma tieStep_foldl_eq (l : List Image) : ∀ first : Image,
    l.foldl tieStep (first, first.PublishedAt)
      = (l.foldl pickLater first, (l.foldl pickLater first).PublishedAt) := by
  induction l with
  | nil => intro first; rfl
  | cons x t ih =>
    intro first
    have hstep : tieStep (first, first.PublishedAt) x
        = (pickLater first x, (pickLater first x).PublishedAt) := by
      by_cases h : first.PublishedAt < x.PublishedAt <;>
        simp [tieStep, pickLater, h]
    simp only [List.foldl_cons, hstep]
    exact ih (pickLater first x)

/-- The tie-break over at least two name matches selects exactly the first
element attaining the maximal publication timestamp. -/
lemma tiebreak_selects_first_max (first next : Image) (rest : List Image) :
    ∃ sel, (first :: next :: rest).find?
        (fun x => x.PublishedAt == maxPubOf (first :: next :: rest)) = some sel ∧
      ((next :: rest).foldl tieStep (first, first.PublishedAt)).1 = sel := by
  refine ⟨(next :: rest).foldl pickLater first, ?_, ?_⟩
  · have h := foldl_pickLater_find (next :: rest) first
    simpa [maxPubOf] using h
  · rw [tieStep_foldl_eq]

/-- C3: when the exact-identifier lookup of the user reference succeeds,
resolution returns the reference verbatim (the driver is unchanged), emits
no resolution log, reports no error, and this holds for every catalog the
listing could return, including ones where the string also matches an
entry name or short id. -/
theorem exact_lookup_short_circuits (env : Env) (d : Driver)
    (h : env.getImage d.TritonImage = none) :
    resolveImageStep env d = (d, [], none) := by
  simp [resolveImageStep, h]

/-- Witness for exact_lookup_short_circuits: an environment whose exact
lookup accepts "debian-8" even though its catalog holds an entry of that
name. -/
theorem exact_lookup_short_circuits_witness :
    envFast.getImage dDeb.TritonImage = none ∧
    resolveImageStep envFast dDeb = (dDeb, [], none) :=
  ⟨rfl, exact_lookup_short_circuits envFast dDeb rfl⟩

/-- C5: after a failed exact lookup, a catalog snapshot with exactly one
entry of the queried name resolves to that entry's exact identifier,
whatever the short-id matches are. -/
theorem single_name_match_selected (env : Env) (d : Driver)
    (images : List Image) (image : Image) (msg : String)
    (hget : env.getImage d.TritonImage = some msg)
    (hlist : env.listImages (mkListInput d.TritonImage) = Except.ok images)
    (hnm : nameMatchesOf d.TritonImage images = [image]) :
    resolveImageStep env d =
      ({ d with TritonImage := image.ID },
       [LogEvent.infoNameMatch d.TritonImage image.ID], none) := by
  simp [resolveImageStep, hget, hlist, hnm]

/-- Witness for single_name_match_selected: catalog catOne has exactly one
entry named "alp" and also a short-id match for "alp"; the name match
wins. -/
theorem single_name_match_selected_witness :
    envOne.getImage dAlp.TritonImage = some "resource not found" ∧
    envOne.listImages (mkListInput dAlp.TritonImage) = Except.ok catOne ∧
    nameMatchesOf dAlp.TritonImage catOne = [⟨"aaa-111", "alp", 5⟩] ∧
    resolveImageStep envOne dAlp =
      ({ dAlp with TritonImage := "aaa-111" },
       [LogEvent.infoNameMatch "alp" "aaa-111"], none) :=
  ⟨rfl, rfl, by decide,
   single_name_match_selected envOne dAlp catOne ⟨"aaa-111", "alp", 5⟩
     "resource not found" rfl rfl (by decide)⟩

/-- C6: after a failed exact lookup, a catalog snapshot with zero name
matches and exactly one short-id match resolves to that entry's exact
identifier. -/
theorem single_shortid_match_selected (env : Env) (d : Driver)
    (images : List Image) (image : Image) (msg : String)
    (hget : env.getImage d.TritonImage = some msg)
    (hlist : env.listImages (mkListInput d.TritonImage) = Except.ok images)
    (hnm : nameMatchesOf d.TritonImage images = [])
    (hsm : shortIdMatchesOf d.TritonImage images = [image]) :
    resolveImageStep env d =
      ({ d with TritonImage := image.ID },
       [LogEvent.infoShortId d.TritonImage image.ID], none) := by
  simp [resolveImageStep, hget, hlist, hnm, hsm]

/-- Witness for single_shortid_match_selected: catalog catSid has no entry
named "ca29" and exactly one entry whose id begins with "ca29". -/
theorem single_shortid_match_selected_witness :
    envSid.getImage dShort.TritonImage = some "resource not found" ∧
    envSid.listImages (mkListInput dShort.TritonImage) = Except.ok catSid ∧
    nameMatchesOf dShort.TritonImage catSid = [] ∧
    shortIdMatchesOf dShort.TritonImage catSid = [⟨"ca29-1111", "imgx", 5⟩] ∧
    resolveImageStep envSid dShort =
      ({ dShort with TritonImage := "ca29-1111" },
       [LogEvent.infoShortId "ca29" "ca29-1111"], none) :=
  ⟨rfl, rfl, by decide, by decide,
   single_shortid_match_selected envSid dShort catSid ⟨"ca29-1111", "imgx", 5⟩
     "resource not found" rfl rfl (by decide) (by decide)⟩

/-- C4: after a failed exact lookup, a catalog snapshot with zero name
matches fails: with an ambiguity warning naming the original reference
when at least two short-id matches exist, and plainly when no match of any
kind exists; in both cases the returned error is the resolution failure of
the original user-supplied reference and the stored reference is not
overwritten with any candidate. -/
theorem zero_name_match_failure (env : Env) (d : Driver)
    (images : List Image) (msg : String)
    (hget : env.getImage d.TritonImage = some msg)
    (hlist : env.listImages (mkListInput d.TritonImage) = Except.ok images)
    (hnm : nameMatchesOf d.TritonImage images = []) :
    (2 ≤ (shortIdMatchesOf d.TritonImage images).length →
       resolveImageStep env d =
         (d, [LogEvent.warnAmbiguous d.TritonImage],
          some (PErr.getImageErr d.TritonImage msg))) ∧
    (shortIdMatchesOf d.TritonImage images = [] →
       resolveImageStep env d =
         (d, [], some (PErr.getImageErr d.TritonImage msg))) := by
  constructor
  · intro hlen
    rcases hsm : shortIdMatchesOf d.TritonImage images with _ | ⟨a, _ | ⟨b, t⟩⟩
    · rw [hsm] at hlen; simp at hlen
    · rw [hsm] at hlen; simp at hlen
    · simp [resolveImageStep, hget, hlist, hnm, hsm]
  · intro hsm
    simp [resolveImageStep, hget, hlist, hnm, hsm]

/-- Witness for zero_name_match_failure: the reference "ca29" matches no
name in catAmb and two short ids, so resolution warns and fails without
selecting either. -/
theorem zero_name_match_failure_witness :
    envAmb.getImage dShort.TritonImage = some "resource not found" ∧
    envAmb.listImages (mkListInput dShort.TritonImage) = Except.ok catAmb ∧
    nameMatchesOf dShort.TritonImage catAmb = [] ∧
    2 ≤ (shortIdMatchesOf dShort.TritonImage catAmb).length ∧
    resolveImageStep envAmb dShort =
      (dShort, [LogEvent.warnAmbiguous dShort.TritonImage],
       some (PErr.getImageErr dShort.TritonImage "resource not found")) :=
  ⟨rfl, rfl, by decide, by decide,
   (zero_name_match_failure envAmb dShort catAmb "resource not found"
     rfl rfl (by decide)).1 (by decide)⟩

/-- C10: every failing outcome of the image-resolution phase (listing
error, zero matches, ambiguous short id) leaves the driver unchanged, so
the stored image reference still holds the original user-supplied
string. -/
theorem resolution_failure_keeps_reference (env : Env) (d : Driver)
    (h : ((resolveImageStep env d).2.2).isSome = true) :
    (resolveImageStep env d).1 = d := by
  cases hg : env.getImage d.TritonImage with
  | none => simp [resolveImageStep, hg] at h
  | some msg =>
    cases hl : env.listImages (mkListInput d.TritonImage) with
    | error e => simp [resolveImageStep, hg, hl]
    | ok images =>
      rcases hnm : nameMatchesOf d.TritonImage images with _ | ⟨a, _ | ⟨b, t⟩⟩
      · rcases hsm : shortIdMatchesOf d.TritonImage images with _ | ⟨c, _ | ⟨e2, t2⟩⟩
        · simp [resolveImageStep, hg, hl, hnm, hsm]
        · simp [resolveImageStep, hg, hl, hnm, hsm] at h
        · simp [resolveImageStep, hg, hl, hnm, hsm]
      · simp [resolveImageStep, hg, hl, hnm] at h
      · simp [resolveImageStep, hg, hl, hnm] at h

/-- Witness for resolution_failure_keeps_reference: the ambiguous short-id
failure on catAmb leaves the stored reference "ca29" in place. -/
theorem resolution_failure_keeps_reference_witness :
    ((resolveImageStep envAmb dShort).2.2).isSome = true ∧
    (resolveImageStep envAmb dShort).1 = dShort :=
  ⟨by decide, resolution_failure_keeps_reference envAmb dShort (by decide)⟩

/-- C1: after a failed exact lookup, a catalog snapshot with at least two
entries of the queried name resolves to the entry found first among those
attaining the maximal publication timestamp (so the latest timestamp wins
and, on a tie, the first one encountered in listing order), and its exact
identifier is stored as the resolved image. -/
theorem name_tiebreak_latest_wins (env : Env) (d : Driver)
    (images : List Image) (msg : String)
    (hget : env.getImage d.TritonImage = some msg)
    (hlist : env.listImages (mkListInput d.TritonImage) = Except.ok images)
    (hlen : 2 ≤ (nameMatchesOf d.TritonImage images).length) :
    ∃ sel, (nameMatchesOf d.TritonImage images).find?
        (fun x => x.PublishedAt == maxPubOf (nameMatchesOf d.TritonImage images))
          = some sel ∧
      resolveImageStep env d =
        ({ d with TritonImage := sel.ID },
         [LogEvent.infoMostRecent d.TritonImage sel.ID
            (nameMatchesOf d.TritonImage images).length], none) := by
  rcases hnm : nameMatchesOf d.TritonImage images with _ | ⟨first, _ | ⟨next, rest⟩⟩
  · rw [hnm] at hlen; simp at hlen
  · rw [hnm] at hlen; simp at hlen
  · obtain ⟨sel, hfind, hsel⟩ := tiebreak_selects_first_max first next rest
    refine ⟨sel, hfind, ?_⟩
    simp only [resolveImageStep, hget, hlist, hnm]
    rw [hsel]

/-- Witness for name_tiebreak_latest_wins: catalog catTie has three images
named "debian-8"; the two latest share timestamp 9 and the first of them,
"bbb-222", is selected. -/
theorem name_tiebreak_latest_wins_witness :
    envTie.getImage dDeb.TritonImage = some "resource not found" ∧
    envTie.listImages (mkListInput dDeb.TritonImage) = Except.ok catTie ∧
    2 ≤ (nameMatchesOf dDeb.TritonImage catTie).length ∧
    ∃ sel, (nameMatchesOf dDeb.TritonImage catTie).find?
        (fun x => x.PublishedAt == maxPubOf (nameMatchesOf dDeb.TritonImage catTie))
          = some sel ∧
      resolveImageStep envTie dDeb =
        ({ dDeb with TritonImage := sel.ID },
         [LogEvent.infoMostRecent dDeb.TritonImage sel.ID
            (nameMatchesOf dDeb.TritonImage catTie).length], none) :=
  ⟨rfl, rfl, by decide,
   name_tiebreak_latest_wins envTie dDeb catTie "resource not found"
     rfl rfl (by decide)⟩

/-- A successful resolution either kept a reference the exact-identifier
lookup accepted, or stored the exact identifier of a listed catalog
entry. -/
lemma resolveImageStep_success_exact (env : Env) (d : Driver)
    (h : (resolveImageStep env d).2.2 = none) :
    (env.getImage d.TritonImage = none ∧ resolveImageStep env d = (d, [], none)) ∨
    (∃ images image, env.listImages (mkListInput d.TritonImage) = Except.ok images ∧
      image ∈ images ∧ (resolveImageStep env d).1.TritonImage = image.ID) := by
  cases hg : env.getImage d.TritonImage with
  | none => exact Or.inl ⟨rfl, by simp [resolveImageStep, hg]⟩
  | some msg =>
    right
    cases hl : env.listImages (mkListInput d.TritonImage) with
    | error e => simp [resolveImageStep, hg, hl] at h
    | ok images =>
      rcases hnm : nameMatchesOf d.TritonImage images with _ | ⟨first, _ | ⟨next, rest⟩⟩
      · rcases hsm : shortIdMatchesOf d.TritonImage images with _ | ⟨image, _ | ⟨b, t⟩⟩
        · simp [resolveImageStep, hg, hl, hnm, hsm] at h
        · have hmem : image ∈ shortIdMatchesOf d.TritonImage images := by
            rw [hsm]; exact List.mem_singleton.mpr rfl
          refine ⟨images, image, rfl, (List.mem_filter.mp hmem).1, ?_⟩
          simp [resolveImageStep, hg, hl, hnm, hsm]
        · simp [resolveImageStep, hg, hl, hnm, hsm] at h
      · have hmem : first ∈ nameMatchesOf d.TritonImage images := by
          rw [hnm]; exact List.mem_singleton.mpr rfl
        refine ⟨images, first, rfl, (List.mem_filter.mp hmem).1, ?_⟩
        simp [resolveImageStep, hg, hl, hnm]
      · obtain ⟨sel, hfind, hsel⟩ := tiebreak_selects_first_max first next rest
        have hmem : sel ∈ nameMatchesOf d.TritonImage images := by
          rw [hnm]; exact List.mem_of_find?_eq_some hfind
        refine ⟨images, sel, rfl, (List.mem_filter.mp hmem).1, ?_⟩
        simp only [resolveImageStep, hg, hl, hnm]
        rw [hsel]

/-- A successful PreCreateCheck ends in the driver state the resolution
phase produced, and that phase succeeded. -/
lemma PreCreateCheck_success_resolve (env : Env) (d : Driver)
    (h : (PreCreateCheck env d).2.2 = none) :
    (PreCreateCheck env d).1 = (resolveImageStep env d).1 ∧
    (resolveImageStep env d).2.2 = none := by
  by_cases hc : env.clientOk = false
  · simp [PreCreateCheck, hc] at h
  · by_cases hp : env.pingOk = false
    · simp [PreCreateCheck, hc, hp] at h
    · rcases hr : resolveImageStep env d with ⟨d1, logs, e⟩
      cases e with
      | some e2 => simp [PreCreateCheck, hc, hp, hr] at h
      | none =>
        refine ⟨?_, by rfl⟩
        by_cases hpkg : env.getPackageOk d1.TritonPackage
        · simp [PreCreateCheck, hc, hp, hr, hpkg]
        · simp [PreCreateCheck, hc, hp, hr, hpkg] at h

/-- C8: when PreCreateCheck succeeds, the image reference that Create will
submit to the remote creation call is the stored reference, and that
reference is an exact catalog identifier: either the original string the
exact-identifier lookup accepted, or the ID field of a catalog entry the
resolver selected, never a bare name that matched no entry. -/
theorem create_receives_exact_identifier (env : Env) (d : Driver)
    (h : (PreCreateCheck env d).2.2 = none) :
    (createInput (PreCreateCheck env d).1).Image
        = (PreCreateCheck env d).1.TritonImage ∧
    ((env.getImage d.TritonImage = none ∧
        (PreCreateCheck env d).1.TritonImage = d.TritonImage) ∨
      (∃ images image,
        env.listImages (mkListInput d.TritonImage) = Except.ok images ∧
        image ∈ images ∧
        (PreCreateCheck env d).1.TritonImage = image.ID)) := by
  obtain ⟨h1, h2⟩ := PreCreateCheck_success_resolve env d h
  refine ⟨rfl, ?_⟩
  rcases resolveImageStep_success_exact env d h2 with ⟨hg, heq⟩ | ⟨images, image, hl, hmem, hid⟩
  · left
    refine ⟨hg, ?_⟩
    rw [h1, heq]
  · right
    refine ⟨images, image, hl, hmem, ?_⟩
    rw [h1]
    exact hid

/-- Witness for create_receives_exact_identifier: the successful run on
catTie hands Create the exact identifier "bbb-222" selected by the
tie-break, not the bare name "debian-8". -/
theorem create_receives_exact_identifier_witness :
    (PreCreateCheck envTie dDeb).2.2 = none ∧
    ((createInput (PreCreateCheck envTie dDeb).1).Image
        = (PreCreateCheck envTie dDeb).1.TritonImage ∧
      ((envTie.getImage dDeb.TritonImage = none ∧
          (PreCreateCheck envTie dDeb).1.TritonImage = dDeb.TritonImage) ∨
        (∃ images image,
          envTie.listImages (mkListInput dDeb.TritonImage) = Except.ok images ∧
          image ∈ images ∧
          (PreCreateCheck envTie dDeb).1.TritonImage = image.ID))) :=
  ⟨by decide, create_receives_exact_identifier envTie dDeb (by decide)⟩

/-- C2 counterexample: the fixed vocabulary of the GetState switch has
nine words, not ten; the nine listed words are exactly the ones mapped
without a diagnostic. -/
theorem state_vocab_count_not_ten :
    stateVocab.length = 9 ∧ ¬ stateVocab.length = 10 ∧
    stateVocab.all (fun s => ((mapState s).2).isNone) = true := by
  decide

/-- C2 (amended to the nine-word vocabulary): GetState maps the fetched
state string through the fixed table, the table sends configured and
provisioning to Starting, failed and receiving to Error, running to
Running, shutting_down and stopping to Stopping, down and stopped to
Stopped, every string outside the nine-word vocabulary yields the Error
state with the unknown-state diagnostic naming it, and every string
inside the vocabulary (failed and receiving included) yields no error. -/
theorem GetState_mapping :
    (∀ (env : MEnv) (d : Driver) (machine : Machine),
      env.getMachine d.TritonMachineId = Except.ok machine →
      ((GetState env d).2.1, (GetState env d).2.2) = mapState machine.State) ∧
    mapState "configured" = (MachineState.Starting, none) ∧
    mapState "provisioning" = (MachineState.Starting, none) ∧
    mapState "failed" = (MachineState.Error, none) ∧
    mapState "receiving" = (MachineState.Error, none) ∧
    mapState "running" = (MachineState.Running, none) ∧
    mapState "shutting_down" = (MachineState.Stopping, none) ∧
    mapState "stopping" = (MachineState.Stopping, none) ∧
    mapState "down" = (MachineState.Stopped, none) ∧
    mapState "stopped" = (MachineState.Stopped, none) ∧
    stateVocab.length = 9 ∧
    (∀ s, s ∉ stateVocab →
      mapState s = (MachineState.Error, some (GErr.unknownState s))) ∧
    (∀ s, s ∈ stateVocab → (mapState s).2 = none) := by
  refine ⟨?_, by decide, by decide, by decide, by decide, by decide, by decide,
    by decide, by decide, by decide, by decide, ?_, ?_⟩
  · intro env d machine hm
    simp [GetState, hm]
  · intro s hs
    simp only [stateVocab, List.mem_cons, List.not_mem_nil, or_false,
      not_or] at hs
    obtain ⟨h1, h2, h3, h4, h5, h6, h7, h8, h9⟩ := hs
    simp [mapState, h1, h2, h3, h4, h5, h6, h7, h8, h9]
  · intro s hs
    simp only [stateVocab, List.mem_cons, List.not_mem_nil, or_false] at hs
    rcases hs with rfl | rfl | rfl | rfl | rfl | rfl | rfl | rfl | rfl <;> decide

/-- Witness for GetState_mapping: a fetch returning state "running" maps
through the table, the word "bogus-state" is outside the vocabulary and
yields the diagnostic, and the word "failed" is inside and yields none. -/
theorem GetState_mapping_witness :
    ((MEnv.mk (fun _ => Except.ok ⟨"node1", "10.0.0.9", "running"⟩)).getMachine
        (Driver.mk "m" "img" "pkg" "vm-1" "").TritonMachineId
        = Except.ok ⟨"node1", "10.0.0.9", "running"⟩ ∧
      ((GetState (MEnv.mk (fun _ => Except.ok ⟨"node1", "10.0.0.9", "running"⟩))
            (Driver.mk "m" "img" "pkg" "vm-1" "")).2.1,
        (GetState (MEnv.mk (fun _ => Except.ok ⟨"node1", "10.0.0.9", "running"⟩))
            (Driver.mk "m" "img" "pkg" "vm-1" "")).2.2)
        = mapState (Machine.mk "node1" "10.0.0.9" "running").State) ∧
    ("bogus-state" ∉ stateVocab ∧
      mapState "bogus-state"
        = (MachineState.Error, some (GErr.unknownState "bogus-state"))) ∧
    ("failed" ∈ stateVocab ∧ (mapState "failed").2 = none) :=
  ⟨⟨rfl, GetState_mapping.1
      (MEnv.mk (fun _ => Except.ok ⟨"node1", "10.0.0.9", "running"⟩))
      (Driver.mk "m" "img" "pkg" "vm-1" "")
      (Machine.mk "node1" "10.0.0.9" "running") rfl⟩,
   ⟨by decide, GetState_mapping.2.2.2.2.2.2.2.2.2.2.2.1 "bogus-state" (by decide)⟩,
   ⟨by decide, GetState_mapping.2.2.2.2.2.2.2.2.2.2.2.2 "failed" (by decide)⟩⟩

/-- C9: Kill performs exactly what Stop performs, the same graceful
StopInstance call on the stored machine id with the same returned result,
for every environment and driver state. -/
theorem Kill_equals_Stop : ∀ (env : OpEnv) (d : Driver),
    Kill env d = Stop env d :=
  fun _ _ => rfl

end Triton

namespace Sdc

/-- A failed accumulator is preserved to the end of the SDC tie-break
scan, matching the immediate return in the loop. -/
lemma tieStep_foldl_error (env : Env) (l : List Image) (e : String) :
    l.foldl (tieStep env) (Except.error e) = Except.error e := by
  induction l with
  | nil => rfl
  | cons x t ih => simpa [tieStep] using ih

/-- If some element of the scanned list has an unparsable publication
timestamp, the SDC tie-break scan ends in a parse error whatever the
starting accumulator. -/
lemma tieStep_foldl_parse_failure (env : Env) (l : List Image) :
    ∀ acc : Image × Int, ∀ image ∈ l,
      (∃ te, iso8859 env image.PublishedAt = Except.error te) →
      ∃ te2, l.foldl (tieStep env) (Except.ok acc) = Except.error te2 := by
  induction l with
  | nil =>
    intro acc image hmem
    simp at hmem
  | cons x t ih =>
    intro acc image hmem hbad
    rcases List.mem_cons.mp hmem with heq | htail
    · obtain ⟨te, hte⟩ := hbad
      rw [heq] at hte
      have hstep : tieStep env (Except.ok acc) x = Except.error te := by
        simp [tieStep, hte]
      rw [List.foldl_cons, hstep]
      exact ⟨te, tieStep_foldl_error env t te⟩
    · rw [List.foldl_cons]
      cases hstep : tieStep env (Except.ok acc) x with
      | error e => exact ⟨e, tieStep_foldl_error env t e⟩
      | ok acc2 => exact ih acc2 image htail hbad

/-- C7: in the SDC tie-break over at least two name matches, publication
timestamps go through iso8859 (time.Parse with the fixed RFC3339 layout),
and if any candidate's timestamp fails to parse, resolution aborts with a
timestamp-parse error, leaving the driver unchanged and selecting no
candidate. -/
theorem tiebreak_parse_failure_aborts (env : Env) (d : Driver)
    (images : List Image) (msg : String)
    (hget : env.getImage d.SdcImage = some msg)
    (hlist : env.listImages (Triton.mkListInput d.SdcImage) = Except.ok images)
    (hlen : 2 ≤ (nameMatchesOf d.SdcImage images).length)
    (hbad : ∃ image ∈ nameMatchesOf d.SdcImage images,
      ∃ te, iso8859 env image.PublishedAt = Except.error te) :
    ∃ te2, resolveImageStep env d = (d, [], some (Err.timeErr te2)) := by
  rcases hnm : nameMatchesOf d.SdcImage images with _ | ⟨first, _ | ⟨next, rest⟩⟩
  · rw [hnm] at hlen; simp at hlen
  · rw [hnm] at hlen; simp at hlen
  · obtain ⟨image, hmem, te, hte⟩ := hbad
    rw [hnm] at hmem
    cases hp1 : iso8859 env first.PublishedAt with
    | error te1 =>
      exact ⟨te1, by simp [resolveImageStep, hget, hlist, hnm, hp1]⟩
    | ok published =>
      have hmem2 : image ∈ next :: rest := by
        rcases List.mem_cons.mp hmem with heq | htail
        · rw [heq, hp1] at hte
          cases hte
        · exact htail
      obtain ⟨te2, hfold⟩ := tieStep_foldl_parse_failure env (next :: rest)
        (first, published) image hmem2 ⟨te, hte⟩
      exact ⟨te2, by simp [resolveImageStep, hget, hlist, hnm, hp1, hfold]⟩

/-- Witness for tiebreak_parse_failure_aborts: catBad has two entries
named "debian-8" and the second one's timestamp "badtime" fails to parse,
so resolution aborts with the parse error. -/
theorem tiebreak_parse_failure_aborts_witness :
    envBad.getImage dDeb.SdcImage = some "resource not found" ∧
    envBad.listImages (Triton.mkListInput dDeb.SdcImage) = Except.ok catBad ∧
    2 ≤ (nameMatchesOf dDeb.SdcImage catBad).length ∧
    (∃ image ∈ nameMatchesOf dDeb.SdcImage catBad,
      ∃ te, iso8859 envBad image.PublishedAt = Except.error te) ∧
    ∃ te2, resolveImageStep envBad dDeb = (dDeb, [], some (Err.timeErr te2)) :=
  ⟨rfl, rfl, by decide,
   ⟨⟨"bbb-222", "debian-8", "badtime"⟩, by decide, "cannot parse", rfl⟩,
   tiebreak_parse_failure_aborts envBad dDeb catBad "resource not found"
     rfl rfl (by decide)
     ⟨⟨"bbb-222", "debian-8", "badtime"⟩, by decide, "cannot parse", rfl⟩⟩

end Sdc
